import Mathlib

/-!
Shallow embedding of the klog facade (xial-thu/klog): a compatibility
layer exposing the legacy leveled-logging API (`V(n).Info`, `Fatal`/`Exit`,
`With*` structured-field attachment) on top of a zap-style structured sink.

Modelling conventions:
* Go `interface{}` values, as seen through `reflect`, are the inductive
  `GoValue`; each carries its declared type name (`reflect.Type.Name()`,
  the empty string for unnamed/anonymous composite types).  A struct field
  carries its name, its `CanInterface()` flag (true exactly for exported
  fields) and its value.  The Go `nil` interface, on which the source's
  `reflect.TypeOf(arg).Kind()` would itself fault, is outside the shapes
  the spec enumerates and is not modelled.
* The zap sink is opaque: an emit operation produces `Event`s — a log
  record (severity, bound attributes, rendered message) or a process
  termination request (`os.Exit`).  Message rendering follows Go's
  `fmt.Sprint` documented semantics (operands concatenated, a single
  space inserted between two consecutive operands only when neither is a
  string), modelled by `sprint`; `fmt.Sprintf` for the verbs used by this
  repository (`%d`, `%s`, `%v`) is modelled by `sprintf`.
* `Level` is an `int32` read and written through atomic load/store; in
  this sequential model `Level.get`/`Level.set` are plain read/write and
  the level lives as an `Int` field (no arithmetic in the source can
  overflow it on the values validated into `[0, 4]`).
-/

/-- Severities of the zap sink: Debug, Info, Warn, Error. -/
inductive Severity where
  | debug
  | info
  | warning
  | error
deriving DecidableEq, Repr

/-- Go runtime values as the facade's reflection sees them.  Every
constructor records the declared type name (`reflect.Type.Name()`; empty
for unnamed composite types). -/
inductive GoValue where
  | vint (typeName : String) (n : Int)
  | vstring (typeName : String) (s : String)
  | vstruct (typeName : String) (fields : List (String × Bool × GoValue))
  | vmap (typeName : String) (entries : List (GoValue × GoValue))
  | vslice (typeName : String) (elems : List GoValue)

/-- `reflect.Type.Name()` of a value's type. -/
def GoValue.typeName : GoValue → String
  | .vint t _ => t
  | .vstring t _ => t
  | .vstruct t _ => t
  | .vmap t _ => t
  | .vslice t _ => t

/-- Whether the operand has string kind (`reflect.String`), which is also
what `fmt`'s space-insertion rule keys on. -/
def isStringOperand : GoValue → Bool
  | .vstring _ _ => true
  | _ => false

mutual

/-- Rendering of one operand by Go's `fmt` default verb `%v`. -/
def GoValue.render : GoValue → String
  | .vint _ n => toString n
  | .vstring _ s => s
  | .vstruct _ fields => "\x7b" ++ renderFields fields ++ "\x7d"
  | .vmap _ entries => "map[" ++ renderEntries entries ++ "]"
  | .vslice _ elems => "[" ++ renderElems elems ++ "]"

/-- Struct fields render space-separated inside braces. -/
def renderFields : List (String × Bool × GoValue) → String
  | [] => ""
  | [(_, _, v)] => GoValue.render v
  | (_, _, v) :: rest => GoValue.render v ++ " " ++ renderFields rest

/-- Map entries render as `key:value`, space-separated. -/
def renderEntries : List (GoValue × GoValue) → String
  | [] => ""
  | [(k, v)] => GoValue.render k ++ ":" ++ GoValue.render v
  | (k, v) :: rest => GoValue.render k ++ ":" ++ GoValue.render v ++ " " ++ renderEntries rest

/-- Slice elements render space-separated inside brackets. -/
def renderElems : List GoValue → String
  | [] => ""
  | [v] => GoValue.render v
  | v :: rest => GoValue.render v ++ " " ++ renderElems rest

end

/-- Go's `fmt.Sprint`: operands are concatenated; a single space is added
between two consecutive operands only when neither is a string. -/
def sprint : List GoValue → String
  | [] => ""
  | [a] => GoValue.render a
  | a :: b :: rest =>
      GoValue.render a ++
        (if isStringOperand a || isStringOperand b then "" else " ") ++
        sprint (b :: rest)

/-- Character-level engine of `sprintf`: substitutes the verbs used in
this repository (`%d`, `%s`, `%v`) left to right. -/
def substVerbs : List Char → List GoValue → List Char
  | [], _ => []
  | '%' :: c :: rest, a :: more =>
      if c = 'd' ∨ c = 's' ∨ c = 'v' then
        (GoValue.render a).toList ++ substVerbs rest more
      else
        '%' :: substVerbs (c :: rest) (a :: more)
  | ch :: rest, more => ch :: substVerbs rest more

/-- Go's `fmt.Sprintf` restricted to the verbs this repository uses. -/
def sprintf (format : String) (args : List GoValue) : String :=
  String.mk (substVerbs format.toList args)

/-- An observable effect of an emit operation: a log record handed to the
sink, or a process-termination request (`os.Exit code`). -/
inductive Event where
  | log (sev : Severity) (attrs : List (String × GoValue)) (msg : String)
  | exit (code : Nat)

/-- Severities of the log records in a trace (termination requests carry
none). -/
def logSevs (es : List Event) : List Severity :=
  es.filterMap fun e =>
    match e with
    | .log s _ _ => some s
    | .exit _ => none

/-- Messages of the log records in a trace. -/
def logMsgs (es : List Event) : List String :=
  es.filterMap fun e =>
    match e with
    | .log _ _ m => some m
    | .exit _ => none

/-- Exit codes requested in a trace. -/
def exitCodes (es : List Event) : List Nat :=
  es.filterMap fun e =>
    match e with
    | .log _ _ _ => none
    | .exit c => some c

/-- The zap `SugaredLogger` as the facade observes it: the attributes
bound to it by `With`.  Output-path configuration is opaque. -/
structure SugaredLogger where
  attrs : List (String × GoValue)

/-- One log record submitted by `sugar.<Sev>(args...)`: the message is
`fmt.Sprint` of the operands, the bound attributes ride along. -/
def SugaredLogger.logAt (s : SugaredLogger) (sev : Severity) (args : List GoValue) : Event :=
  .log sev s.attrs (sprint args)

/-- One log record submitted by `sugar.<Sev>f(format, args...)`. -/
def SugaredLogger.logfAt (s : SugaredLogger) (sev : Severity)
    (format : String) (args : List GoValue) : Event :=
  .log sev s.attrs (sprintf format args)

/-- `klog.Klogger`: wraps a sugared logger and the verbosity level
(`config.level` in the source, an atomically accessed `int32`). -/
structure Klogger where
  sugar : SugaredLogger
  level : Int

/-- `MinLevel`: default level, forbids DEBUG log. -/
def MinLevel : Int := 0

/-- `MaxLevel`: max level `V(4)`. -/
def MaxLevel : Int := 4

/-- `Level.get`: atomic load of the level (plain read in this sequential
model). -/
def Level.get (l : Int) : Int := l

/-- `Level.set`: atomic store of the level. -/
def Level.set (_l val : Int) : Int := val

/-- The package-level no-op-safe logger installed by `init()`. -/
def initKlogger : Klogger := { sugar := { attrs := [] }, level := 0 }

/-- Helper for `"\n"` and other plain Go string literals (declared type
`string`). -/
def strv (s : String) : GoValue := .vstring "string" s

/-- Helper for plain `int` literals. -/
def intv (n : Int) : GoValue := .vint "int" n

/-- `Klogger.Warningf`: `k.sugar.Warnf(format, args...)`. -/
def Klogger.Warningf (k : Klogger) (format : String) (args : List GoValue) : List Event :=
  [k.sugar.logfAt .warning format args]

/-- `Klogger.SetLevel`: rejects a level outside `[MinLevel, MaxLevel]`
with a `Warningf` report and no state change; otherwise stores the level
(when it differs from the current one).  Returns the updated logger and
the emitted events. -/
def Klogger.SetLevel (k : Klogger) (v : Int) : Klogger × List Event :=
  if v < MinLevel ∨ v > MaxLevel then
    (k, k.Warningf "failed setting level: expect [0, 4], get %d" [.vint "Level" v])
  else if Level.get k.level ≠ v then
    ({ k with level := Level.set k.level v }, [])
  else
    (k, [])

/-- The two recognized configuration options (`-v`,
`-alsologtostderr`). -/
structure Config where
  v : Int
  alsologtostderr : Bool

/-- Outcome of the once-guarded configuration body: a configured logger
plus its startup events, or a panic that aborts the process. -/
inductive InitResult where
  | ok (k : Klogger) (events : List Event)
  | panic (msg : String)

/-- `Singleton`'s once-guarded body: copies the configured verbosity into
the level, validates it against `[MinLevel, MaxLevel]` — out of range is
a panic that aborts the process — then builds the production sink and
emits the `Infof("init zap logger...")` record through it. -/
def Klog.Singleton (cfg : Config) : InitResult :=
  let level := Level.set 0 cfg.v
  if level < MinLevel ∨ level > MaxLevel then
    .panic "FATAL: 'v' must be in the range [0, 4]"
  else
    .ok { sugar := { attrs := [] }, level := level }
      [SugaredLogger.logfAt { attrs := [] } .info "init zap logger..." []]

/-- `type Verbose bool`: the ephemeral token returned by `V`. -/
abbrev Verbose := Bool

/-- Free `V(level)`: `Verbose(level <= klogger.config.level.get())`,
where `g` is the process-wide singleton `klogger`. -/
def V (g : Klogger) (level : Int) : Verbose :=
  decide (level ≤ Level.get g.level)

/-- Method `k.V(level)`: `Verbose(level <= k.config.level.get())`. -/
def Klogger.V (k : Klogger) (level : Int) : Verbose :=
  decide (level ≤ Level.get k.level)

/-- `Verbose.Info`: when the token is true, `klogger.sugar.Debug(args...)`
— always through the process-wide singleton `g`, at debug severity. -/
def Verbose.Info (g : Klogger) (v : Verbose) (args : List GoValue) : List Event :=
  if v then [g.sugar.logAt .debug args] else []

/-- `Verbose.Infoln`: when the token is true,
`s := fmt.Sprint(args...); klogger.sugar.Debug(s, "\n")`. -/
def Verbose.Infoln (g : Klogger) (v : Verbose) (args : List GoValue) : List Event :=
  if v then [g.sugar.logAt .debug [strv (sprint args), strv "\n"]] else []

/-- `Verbose.Infof`: when the token is true,
`klogger.sugar.Debugf(format, args...)`. -/
def Verbose.Infof (g : Klogger) (v : Verbose) (format : String) (args : List GoValue) : List Event :=
  if v then [g.sugar.logfAt .debug format args] else []

/-- Free `Info(args...)`: the source reads `klogger.sugar.Info(args)` —
the variadic slice is passed as a single operand, not spread. -/
def Info (g : Klogger) (args : List GoValue) : List Event :=
  [g.sugar.logAt .info [GoValue.vslice "" args]]

/-- Method `k.Info(args...)`: `k.sugar.Info(args...)` (spread). -/
def Klogger.Info (k : Klogger) (args : List GoValue) : List Event :=
  [k.sugar.logAt .info args]

/-- `Infoln`, free and method alike:
`s := fmt.Sprint(args...); sugar.Info(s, "\n")`. -/
def Klogger.Infoln (k : Klogger) (args : List GoValue) : List Event :=
  [k.sugar.logAt .info [strv (sprint args), strv "\n"]]

/-- `Infof`: `sugar.Infof(format, args...)`. -/
def Klogger.Infof (k : Klogger) (format : String) (args : List GoValue) : List Event :=
  [k.sugar.logfAt .info format args]

/-- `Warning`: `sugar.Warn(args...)`. -/
def Klogger.Warning (k : Klogger) (args : List GoValue) : List Event :=
  [k.sugar.logAt .warning args]

/-- `Warningln`: `s := fmt.Sprint(args...); sugar.Warn(s, "\n")`. -/
def Klogger.Warningln (k : Klogger) (args : List GoValue) : List Event :=
  [k.sugar.logAt .warning [strv (sprint args), strv "\n"]]

/-- `Error`: `sugar.Error(args...)`. -/
def Klogger.Error (k : Klogger) (args : List GoValue) : List Event :=
  [k.sugar.logAt .error args]

/-- `Errorln`: `s := fmt.Sprint(args...); sugar.Error(s, "\n")`. -/
def Klogger.Errorln (k : Klogger) (args : List GoValue) : List Event :=
  [k.sugar.logAt .error [strv (sprint args), strv "\n"]]

/-- `Errorf`: `sugar.Errorf(format, args...)`. -/
def Klogger.Errorf (k : Klogger) (format : String) (args : List GoValue) : List Event :=
  [k.sugar.logfAt .error format args]

/-- `Fatal`: `sugar.Error(args...); os.Exit(255)`.  Free and method
bodies are identical up to the receiver. -/
def Klogger.Fatal (k : Klogger) (args : List GoValue) : List Event :=
  [k.sugar.logAt .error args, .exit 255]

/-- `FatalDepth`: same record as `Fatal` (the depth argument is accepted
and ignored by this sink), then `os.Exit(255)`. -/
def Klogger.FatalDepth (k : Klogger) (_depth : Int) (args : List GoValue) : List Event :=
  [k.sugar.logAt .error args, .exit 255]

/-- `Fatalln`: `s := fmt.Sprint(args...); sugar.Error(s, "\n");
os.Exit(255)`. -/
def Klogger.Fatalln (k : Klogger) (args : List GoValue) : List Event :=
  [k.sugar.logAt .error [strv (sprint args), strv "\n"], .exit 255]

/-- `Fatalf`: `sugar.Errorf(format, args...); os.Exit(255)`. -/
def Klogger.Fatalf (k : Klogger) (format : String) (args : List GoValue) : List Event :=
  [k.sugar.logfAt .error format args, .exit 255]

/-- `Exit`: `sugar.Error(args...); os.Exit(1)`. -/
def Klogger.Exit (k : Klogger) (args : List GoValue) : List Event :=
  [k.sugar.logAt .error args, .exit 1]

/-- `ExitDepth`: same record as `Exit`, then `os.Exit(1)`. -/
def Klogger.ExitDepth (k : Klogger) (_depth : Int) (args : List GoValue) : List Event :=
  [k.sugar.logAt .error args, .exit 1]

/-- `Exitln`: `s := fmt.Sprint(args...); sugar.Error(s, "\n");
os.Exit(1)`. -/
def Klogger.Exitln (k : Klogger) (args : List GoValue) : List Event :=
  [k.sugar.logAt .error [strv (sprint args), strv "\n"], .exit 1]

/-- `Exitf`: `sugar.Errorf(format, args...); os.Exit(1)`. -/
def Klogger.Exitf (k : Klogger) (format : String) (args : List GoValue) : List Event :=
  [k.sugar.logfAt .error format args, .exit 1]

/-- `newSugar.Desugar().With(zap.Any(key, value)).Sugar()` /
`newSugar.With(key, value)`: bind one more attribute to the sink handle. -/
def addAttr (s : SugaredLogger) (key : String) (v : GoValue) : SugaredLogger :=
  { s with attrs := s.attrs ++ [(key, v)] }

/-- Inner loop of `With` over a struct: one attribute per field whose
`CanInterface()` flag is set (exactly the exported fields), keyed by
`t.Field(i).Name`. -/
def withStructField (s : SugaredLogger) (f : String × Bool × GoValue) : SugaredLogger :=
  if f.2.1 then addAttr s f.1 f.2.2 else s

/-- Inner loop of `With` over a map: one attribute per entry whose key
has string kind (`key.Kind() == reflect.String`); map values obtained by
reflection always satisfy `CanInterface()`. -/
def withMapEntry (s : SugaredLogger) (e : GoValue × GoValue) : SugaredLogger :=
  match e.1 with
  | .vstring _ key => addAttr s key e.2
  | _ => s

/-- `With`'s per-argument switch on `t.Kind()`: structs and maps are
decomposed, every other kind falls to the empty default branch. -/
def withArg (s : SugaredLogger) (arg : GoValue) : SugaredLogger :=
  match arg with
  | .vstruct _ fields => fields.foldl withStructField s
  | .vmap _ entries => entries.foldl withMapEntry s
  | _ => s

/-- `Klogger.With`: folds the per-argument decomposition over the
argument list and wraps the resulting sink handle in a fresh `Klogger`
whose level field is the zero value. -/
def Klogger.With (k : Klogger) (args : List GoValue) : Klogger :=
  { sugar := args.foldl withArg k.sugar, level := 0 }

/-- Per-argument step of `WithAll`: `newSugar.With(t.Name(), arg)` — one
attribute keyed by the declared type name, the argument itself as
value. -/
def withAllArg (s : SugaredLogger) (arg : GoValue) : SugaredLogger :=
  addAttr s arg.typeName arg

/-- `Klogger.WithAll`: one attribute per argument, in order, wrapped in a
fresh `Klogger` whose level field is the zero value. -/
def Klogger.WithAll (k : Klogger) (args : List GoValue) : Klogger :=
  { sugar := args.foldl withAllArg k.sugar, level := 0 }

/-- The zap sink's own pairing of a loose key/value list
(`sugar.With(args...)`); validation of malformed tails is delegated to
the sink, which stops pairing there.  Only the derived logger's level
matters to the claims below. -/
def pairUp : List GoValue → List (String × GoValue)
  | .vstring _ key :: v :: rest => (key, v) :: pairUp rest
  | _ => []

/-- `Klogger.WithFields`: `k.sugar.With(args...)` wrapped in a fresh
`Klogger` whose level field is the zero value. -/
def Klogger.WithFields (k : Klogger) (args : List GoValue) : Klogger :=
  { sugar := { attrs := k.sugar.attrs ++ pairUp args }, level := 0 }

/-- The chained legacy call `k.V(n).Info(args...)` against the
process-wide singleton `g`. -/
def chainVInfo (g k : Klogger) (n : Int) (args : List GoValue) : List Event :=
  Verbose.Info g (Klogger.V k n) args

/-- The chained legacy call `k.V(n).Infoln(args...)`. -/
def chainVInfoln (g k : Klogger) (n : Int) (args : List GoValue) : List Event :=
  Verbose.Infoln g (Klogger.V k n) args

/-- The chained legacy call `k.V(n).Infof(format, args...)`. -/
def chainVInfof (g k : Klogger) (n : Int) (format : String) (args : List GoValue) : List Event :=
  Verbose.Infof g (Klogger.V k n) format args

/-- The spec's description of `With`'s per-argument decomposition: one
attribute per exported struct field keyed by the field's own name; one
attribute per map entry whose key is of string type; nothing for any
other shape. -/
def withSpecAttrs : GoValue → List (String × GoValue)
  | .vstruct _ fields =>
      fields.filterMap fun f => if f.2.1 then some (f.1, f.2.2) else none
  | .vmap _ entries =>
      entries.filterMap fun e =>
        match e.1 with
        | .vstring _ key => some (key, e.2)
        | _ => none
  | _ => []

/-- The join the spec's words describe for the `*ln` variants: arguments
joined with a single space between consecutive arguments. -/
def spaceJoin : List GoValue → String
  | [] => ""
  | [a] => GoValue.render a
  | a :: rest => GoValue.render a ++ " " ++ spaceJoin rest

/-- The shape shared by every `Fatal*`/`Exit*` trace: exactly one record
at error severity carrying the logger's bound attributes, submitted to
the sink strictly before the single termination request that ends the
trace (so the call never returns normally). -/
def errorThenExit (k : Klogger) (es : List Event) (code : Nat) : Prop :=
  ∃ m, es = [Event.log .error k.sugar.attrs m, Event.exit code]

/-- Attribute-list accumulation of the struct inner loop of `With`. -/
theorem foldl_withStructField_attrs (fields : List (String × Bool × GoValue))
    (s : SugaredLogger) :
    (fields.foldl withStructField s).attrs =
      s.attrs ++ fields.filterMap (fun f => if f.2.1 then some (f.1, f.2.2) else none) := by
  induction fields generalizing s with
  | nil => simp
  | cons f rest ih =>
    rcases f with ⟨name, exported, value⟩
    by_cases hx : exported <;>
      simp [List.foldl_cons, withStructField, hx, addAttr, ih, List.filterMap_cons]

/-- Attribute-list accumulation of the map inner loop of `With`. -/
theorem foldl_withMapEntry_attrs (entries : List (GoValue × GoValue)) (s : SugaredLogger) :
    (entries.foldl withMapEntry s).attrs =
      s.attrs ++ entries.filterMap (fun e =>
        match e.1 with
        | .vstring _ key => some (key, e.2)
        | _ => none) := by
  induction entries generalizing s with
  | nil => simp
  | cons e rest ih =>
    rcases e with ⟨ek, ev⟩
    cases ek <;> simp [List.foldl_cons, withMapEntry, addAttr, ih, List.filterMap_cons]

/-- One `With` argument contributes exactly the spec-described
attributes. -/
theorem withArg_attrs (s : SugaredLogger) (arg : GoValue) :
    (withArg s arg).attrs = s.attrs ++ withSpecAttrs arg := by
  cases arg <;>
    simp [withArg, withSpecAttrs, foldl_withStructField_attrs, foldl_withMapEntry_attrs]

/-- Attribute-list accumulation of `With`'s outer loop. -/
theorem foldl_withArg_attrs (args : List GoValue) (s : SugaredLogger) :
    (args.foldl withArg s).attrs = s.attrs ++ args.flatMap withSpecAttrs := by
  induction args generalizing s with
  | nil => simp
  | cons a rest ih =>
    simp [List.foldl_cons, ih, withArg_attrs, List.flatMap_cons]

/-- Attribute-list accumulation of `WithAll`'s loop. -/
theorem foldl_withAllArg_attrs (args : List GoValue) (s : SugaredLogger) :
    (args.foldl withAllArg s).attrs = s.attrs ++ args.map (fun a => (a.typeName, a)) := by
  induction args generalizing s with
  | nil => simp
  | cons a rest ih => simp [List.foldl_cons, ih, withAllArg, addAttr]

/-- `fmt.Sprint` agrees with the plain single-space join whenever no
argument is a string (the space rule then always fires). -/
theorem sprint_eq_spaceJoin (args : List GoValue)
    (h : ∀ a ∈ args, isStringOperand a = false) :
    sprint args = spaceJoin args := by
  induction args with
  | nil => rfl
  | cons a rest ih =>
    cases rest with
    | nil => rfl
    | cons b rest2 =>
      have ha := h a (by simp)
      have hb := h b (by simp)
      have ih2 := ih fun x hx => h x (List.mem_cons_of_mem _ hx)
      simp [sprint, spaceJoin, ha, hb, ih2]

/-- C1: for every level `v` in `[0, 4]`, `SetLevel v` followed by a
`get()` of the level returns `v` (and reports nothing); for every `v`
outside the range, `SetLevel v` leaves the level unchanged and emits
exactly one warning-severity report (the operation is total — it never
crashes). -/
theorem claim_C1_setLevel (k : Klogger) (v : Int) :
    (MinLevel ≤ v ∧ v ≤ MaxLevel →
      Level.get (k.SetLevel v).1.level = v ∧ (k.SetLevel v).2 = []) ∧
    ((v < MinLevel ∨ MaxLevel < v) →
      Level.get (k.SetLevel v).1.level = Level.get k.level ∧
      logSevs (k.SetLevel v).2 = [.warning]) := by
  constructor
  · rintro ⟨h1, h2⟩
    rw [Klogger.SetLevel, if_neg (by omega)]
    split
    · exact ⟨rfl, rfl⟩
    · next h =>
      refine ⟨?_, rfl⟩
      simp only [Level.get, ne_eq, not_not] at h ⊢
      exact h
  · intro h
    rw [Klogger.SetLevel, if_pos (by omega)]
    exact ⟨rfl, rfl⟩

/-- Witness for C1 at the concrete levels 2 (in range, on the initial
logger at level 0) and 7 (out of range). -/
theorem claim_C1_setLevel_witness :
    ((MinLevel ≤ 2 ∧ 2 ≤ MaxLevel) ∧
      Level.get (initKlogger.SetLevel 2).1.level = 2 ∧ (initKlogger.SetLevel 2).2 = []) ∧
    ((7 < MinLevel ∨ MaxLevel < 7) ∧
      Level.get (initKlogger.SetLevel 7).1.level = Level.get initKlogger.level ∧
      logSevs (initKlogger.SetLevel 7).2 = [.warning]) :=
  ⟨⟨by decide, (claim_C1_setLevel initKlogger 2).1 (by decide)⟩,
   ⟨by decide, (claim_C1_setLevel initKlogger 7).2 (by decide)⟩⟩

/-- C2: the once-guarded configuration body validates the initial
verbosity against `[MinLevel, MaxLevel]`; in range it installs a
configured logger (level set to the verbosity) and emits the single
startup record, while any out-of-range verbosity is a fatal panic that
aborts the process instead of a recoverable report. -/
theorem claim_C2_singleton (v : Int) (echo : Bool) :
    (MinLevel ≤ v ∧ v ≤ MaxLevel →
      Klog.Singleton ⟨v, echo⟩ =
        .ok { sugar := { attrs := [] }, level := v }
          [.log .info [] "init zap logger..."]) ∧
    ((v < MinLevel ∨ MaxLevel < v) →
      Klog.Singleton ⟨v, echo⟩ = .panic "FATAL: 'v' must be in the range [0, 4]") := by
  constructor
  · rintro ⟨h1, h2⟩
    rw [Klog.Singleton]
    simp only [Level.set]
    rw [if_neg (by omega)]
    rfl
  · intro h
    rw [Klog.Singleton]
    simp only [Level.set]
    rw [if_pos (by omega)]

/-- Witness for C2 at verbosity 3 (configures) and verbosity 5
(aborts). -/
theorem claim_C2_singleton_witness :
    ((MinLevel ≤ 3 ∧ 3 ≤ MaxLevel) ∧
      Klog.Singleton ⟨3, true⟩ =
        .ok { sugar := { attrs := [] }, level := 3 }
          [.log .info [] "init zap logger..."]) ∧
    ((5 < MinLevel ∨ MaxLevel < 5) ∧
      Klog.Singleton ⟨5, true⟩ = .panic "FATAL: 'v' must be in the range [0, 4]") :=
  ⟨⟨by decide, (claim_C2_singleton 3 true).1 (by decide)⟩,
   ⟨by decide, (claim_C2_singleton 5 true).2 (by decide)⟩⟩

/-- C5: `V(n).Info(args)` produces a record exactly when `n` is at most
the current level — in that case a single debug-severity record through
the singleton — and the plain free `Info` always emits one info-severity
record regardless of the verbosity setting. -/
theorem claim_C5_verbosity_gate (g : Klogger) (n : Int) (args : List GoValue) :
    (Verbose.Info g (V g n) args ≠ [] ↔ n ≤ Level.get g.level) ∧
    (n ≤ Level.get g.level →
      Verbose.Info g (V g n) args = [.log .debug g.sugar.attrs (sprint args)]) ∧
    logSevs (Info g args) = [.info] := by
  by_cases h : n ≤ Level.get g.level <;>
    simp [V, Verbose.Info, Info, logSevs, SugaredLogger.logAt, h, Level.get]

/-- Witness for C5: level 1 at current level 2 emits one debug record;
the iff holds on both sides at levels 1 and 3. -/
theorem claim_C5_verbosity_gate_witness :
    Verbose.Info { sugar := { attrs := [] }, level := 2 }
        (V { sugar := { attrs := [] }, level := 2 } 1) [strv "m"] ≠ [] ∧
    Verbose.Info { sugar := { attrs := [] }, level := 2 }
        (V { sugar := { attrs := [] }, level := 2 } 1) [strv "m"] =
      [.log .debug [] (sprint [strv "m"])] ∧
    logSevs (Info { sugar := { attrs := [] }, level := 2 } [strv "m"]) = [.info] :=
  ⟨(claim_C5_verbosity_gate { sugar := { attrs := [] }, level := 2 } 1 [strv "m"]).1.mpr
      (by decide),
   (claim_C5_verbosity_gate { sugar := { attrs := [] }, level := 2 } 1 [strv "m"]).2.1
      (by decide),
   (claim_C5_verbosity_gate { sugar := { attrs := [] }, level := 2 } 1 [strv "m"]).2.2⟩

/-- C6: every `Fatal*` operation submits its message to the sink at
error severity and then requests termination with exit code 255; every
`Exit*` operation does the same with exit code 1; in each trace the log
record precedes the termination request and the trace ends in the
termination request, so the call never returns normally. -/
theorem claim_C6_fatal_exit (k : Klogger) (depth : Int) (format : String)
    (args : List GoValue) :
    errorThenExit k (k.Fatal args) 255 ∧
    errorThenExit k (k.Fatalln args) 255 ∧
    errorThenExit k (k.Fatalf format args) 255 ∧
    errorThenExit k (k.FatalDepth depth args) 255 ∧
    errorThenExit k (k.Exit args) 1 ∧
    errorThenExit k (k.Exitln args) 1 ∧
    errorThenExit k (k.Exitf format args) 1 ∧
    errorThenExit k (k.ExitDepth depth args) 1 :=
  ⟨⟨_, rfl⟩, ⟨_, rfl⟩, ⟨_, rfl⟩, ⟨_, rfl⟩, ⟨_, rfl⟩, ⟨_, rfl⟩, ⟨_, rfl⟩, ⟨_, rfl⟩⟩

/-- C3: `With` adds, per argument in order, exactly the spec-described
attributes — one per exported struct field under the field's own name
(unexported fields omitted), one per string-keyed map entry (non-string
keys skipped), and nothing for any other shape — and, being a total
function of its arguments, never raises an error. -/
theorem claim_C3_with (k : Klogger) (args : List GoValue) :
    (k.With args).sugar.attrs = k.sugar.attrs ++ args.flatMap withSpecAttrs ∧
    (∀ t n, withSpecAttrs (.vint t n) = []) ∧
    (∀ t s, withSpecAttrs (.vstring t s) = []) ∧
    (∀ t es, withSpecAttrs (.vslice t es) = []) :=
  ⟨by simp [Klogger.With, foldl_withArg_attrs], fun _ _ => rfl, fun _ _ => rfl,
    fun _ _ => rfl⟩

/-- C4: `WithAll` adds, per argument in order and regardless of shape,
exactly one attribute keyed by the argument's declared type name (the
empty string for unnamed types) whose value is the argument itself,
unflattened. -/
theorem claim_C4_withAll (k : Klogger) (args : List GoValue) :
    (k.WithAll args).sugar.attrs =
      k.sugar.attrs ++ args.map (fun a => (GoValue.typeName a, a)) := by
  simp [Klogger.WithAll, foldl_withAllArg_attrs]

/-- C7: the free function `Info` does not behave like the method
`Klogger.Info` on the same logger — the source passes the variadic slice
unspread (`klogger.sugar.Info(args)`), so `Info("x")` logs the message
`[x]` while `klogger.Info("x")` logs `x`. -/
theorem claim_C7_info_divergence :
    logMsgs (Info initKlogger [strv "x"]) = ["[x]"] ∧
    logMsgs (Klogger.Info initKlogger [strv "x"]) = ["x"] ∧
    Info initKlogger [strv "x"] ≠ Klogger.Info initKlogger [strv "x"] :=
  ⟨rfl, rfl, fun h => absurd (congrArg logMsgs h) (by decide)⟩

/-- C8: every logger derived through `With`, `WithAll` or `WithFields`
carries verbosity level 0 (the level field is not inherited from the
receiver), so for every level `n ≥ 1` the derived logger's `V n` is
false regardless of the parent's level. -/
theorem claim_C8_derived_level (k : Klogger) (args : List GoValue) (n : Int)
    (h : 1 ≤ n) :
    (k.With args).level = 0 ∧ (k.WithAll args).level = 0 ∧
    (k.WithFields args).level = 0 ∧
    Klogger.V (k.With args) n = false ∧
    Klogger.V (k.WithAll args) n = false ∧
    Klogger.V (k.WithFields args) n = false := by
  refine ⟨rfl, rfl, rfl, ?_, ?_, ?_⟩ <;>
    simp [Klogger.V, Klogger.With, Klogger.WithAll, Klogger.WithFields, Level.get] <;>
    omega

/-- Witness for C8: a parent at level 4 and a derived logger queried at
level 1. -/
theorem claim_C8_derived_level_witness :
    (1 : Int) ≤ 1 ∧
    (({ sugar := { attrs := [] }, level := 4 } : Klogger).With [strv "a"]).level = 0 ∧
    (({ sugar := { attrs := [] }, level := 4 } : Klogger).WithAll [strv "a"]).level = 0 ∧
    (({ sugar := { attrs := [] }, level := 4 } : Klogger).WithFields [strv "a"]).level = 0 ∧
    Klogger.V (({ sugar := { attrs := [] }, level := 4 } : Klogger).With [strv "a"]) 1 = false ∧
    Klogger.V (({ sugar := { attrs := [] }, level := 4 } : Klogger).WithAll [strv "a"]) 1 = false ∧
    Klogger.V (({ sugar := { attrs := [] }, level := 4 } : Klogger).WithFields [strv "a"]) 1 = false :=
  ⟨by decide,
    claim_C8_derived_level { sugar := { attrs := [] }, level := 4 } [strv "a"] 1 (by decide)⟩

/-- C9 counterexample: `Infoln("a", "b")` forwards the message `ab\n`
(its arguments joined by `fmt.Sprint`, which inserts no space between
two strings), not the single-space join `a b\n` the claim describes. -/
theorem claim_C9_counterexample :
    logMsgs (Klogger.Infoln initKlogger [strv "a", strv "b"]) ≠
      [spaceJoin [strv "a", strv "b"] ++ "\n"] := by
  decide

/-- C9 as amended: the `*ln` variants join their arguments as
`fmt.Sprint` does — a single space between consecutive arguments only
when neither adjacent argument is a string (so the spec's single-space
join is recovered whenever no argument is a string) — append a trailing
newline marker, and forward the result at the corresponding severity. -/
theorem claim_C9_ln_variants (k : Klogger) (args : List GoValue) :
    k.Infoln args = [.log .info k.sugar.attrs (sprint args ++ "\n")] ∧
    k.Warningln args = [.log .warning k.sugar.attrs (sprint args ++ "\n")] ∧
    k.Errorln args = [.log .error k.sugar.attrs (sprint args ++ "\n")] ∧
    ((∀ a ∈ args, isStringOperand a = false) → sprint args = spaceJoin args) := by
  refine ⟨?_, ?_, ?_, sprint_eq_spaceJoin args⟩ <;>
    simp [Klogger.Infoln, Klogger.Warningln, Klogger.Errorln, SugaredLogger.logAt,
      sprint, strv, isStringOperand, GoValue.render, String.append_empty]

/-- Witness for C9 at two integer arguments: the emitted message is the
space-joined `1 2` plus newline, and the join clause fires. -/
theorem claim_C9_ln_variants_witness :
    initKlogger.Infoln [intv 1, intv 2] =
      [.log .info [] (sprint [intv 1, intv 2] ++ "\n")] ∧
    isStringOperand (intv 1) = false ∧ isStringOperand (intv 2) = false ∧
    sprint [intv 1, intv 2] = spaceJoin [intv 1, intv 2] :=
  ⟨(claim_C9_ln_variants initKlogger [intv 1, intv 2]).1, rfl, rfl,
    (claim_C9_ln_variants initKlogger [intv 1, intv 2]).2.2.2 (by decide)⟩

/-- C10: a verbosity token carries no identity beyond its boolean — two
tokens with equal boolean value produce identical emissions from the
chained `Info`/`Infoln`/`Infof`, and a true token emits through the
process-wide singleton `g`'s sink (its bound attributes), not through
the logger that produced the token. -/
theorem claim_C10_token_identity (g k1 k2 : Klogger) (n1 n2 : Int)
    (format : String) (args : List GoValue) :
    (Klogger.V k1 n1 = Klogger.V k2 n2 →
      chainVInfo g k1 n1 args = chainVInfo g k2 n2 args ∧
      chainVInfoln g k1 n1 args = chainVInfoln g k2 n2 args ∧
      chainVInfof g k1 n1 format args = chainVInfof g k2 n2 format args) ∧
    (Klogger.V k1 n1 = true →
      chainVInfo g k1 n1 args = [.log .debug g.sugar.attrs (sprint args)]) := by
  constructor
  · intro h
    rw [chainVInfo, chainVInfo, chainVInfoln, chainVInfoln, chainVInfof, chainVInfof, h]
    exact ⟨rfl, rfl, rfl⟩
  · intro h
    rw [chainVInfo, Verbose.Info, h]
    simp [SugaredLogger.logAt]

/-- Witness for C10: a token from a level-0 logger at query level 0 and
one from a level-4 logger at query level 4 are both true and chain to
the same debug record through the singleton. -/
theorem claim_C10_token_identity_witness :
    (Klogger.V { sugar := { attrs := [] }, level := 0 } 0 =
      Klogger.V { sugar := { attrs := [] }, level := 4 } 4 ∧
      chainVInfo initKlogger { sugar := { attrs := [] }, level := 0 } 0 [strv "m"] =
        chainVInfo initKlogger { sugar := { attrs := [] }, level := 4 } 4 [strv "m"]) ∧
    (Klogger.V { sugar := { attrs := [] }, level := 0 } 0 = true ∧
      chainVInfo initKlogger { sugar := { attrs := [] }, level := 0 } 0 [strv "m"] =
        [.log .debug [] (sprint [strv "m"])]) :=
  ⟨⟨by decide,
     ((claim_C10_token_identity initKlogger { sugar := { attrs := [] }, level := 0 }
        { sugar := { attrs := [] }, level := 4 } 0 4 "f" [strv "m"]).1 (by decide)).1⟩,
   ⟨by decide,
     (claim_C10_token_identity initKlogger { sugar := { attrs := [] }, level := 0 }
        { sugar := { attrs := [] }, level := 4 } 0 4 "f" [strv "m"]).2 (by decide)⟩⟩
